import Mathlib

/-!
Shallow embedding of the transaction-graph construction engine of the
EtherWallet repository (file `src/components/TransactionGraph.tsx`), together
with proofs of the specified claims about it.

Amounts and coordinates (JavaScript numbers) are modelled as rationals, and
JavaScript string truthiness is modelled as inequality with the empty string.
-/

namespace EtherWallet

/-- Direction of a link relative to the focus address
(`"outgoing" | "incoming"` in the source). -/
inductive Direction where
  | incoming
  | outgoing
deriving DecidableEq

/-- The `Transaction` interface of `TransactionGraph.tsx`: sender, recipient,
amount, date, id, direction and gas cost. -/
structure Transaction where
  source : String
  target : String
  amount : ℚ
  date : String
  transactionId : String
  direction : Direction
  gasCost : ℚ
deriving DecidableEq

/-- The validity filter (lines 151-157 of the source):
`tx.source && tx.target && typeof tx.amount === "number" && tx.source !== tx.target`.
A JavaScript string is truthy iff non-empty; `amount` is always a number here. -/
def isValidTx (t : Transaction) : Bool :=
  t.source != "" && t.target != "" && t.source != t.target

/-- The detail level chosen by the user (`"low" | "medium" | "high"`). -/
inductive DetailLevel where
  | low
  | medium
  | high
deriving DecidableEq

/-- The `transactionLimit` set by the detail-level effect (lines 107-123):
low 25, medium 50, high 100. -/
def limitOf : DetailLevel → Nat
  | .low => 25
  | .medium => 50
  | .high => 100

/-- `validTransactions = transactions.filter(...)` (line 151). -/
def validTransactions (txs : List Transaction) : List Transaction :=
  txs.filter isValidTx

/-- `limitedTransactions = validTransactions.slice(0, transactionLimit)` (line 160). -/
def limitedTransactions (txs : List Transaction) (d : DetailLevel) : List Transaction :=
  (validTransactions txs).take (limitOf d)

/-- One `nodeIds.add` step guarded by JavaScript truthiness:
`if (tx.source) nodeIds.add(tx.source)` (lines 196-199). A JavaScript `Set`
ignores re-insertion, so an element keeps the position of its first insertion. -/
def addAddr (acc : List String) (a : String) : List String :=
  if a = "" then acc else if a ∈ acc then acc else acc ++ [a]

/-- The node id set (lines 192-199): the focus address plus every endpoint
address of the limited transactions, in `Set` insertion order. -/
def nodeIds (focus : String) (lt : List Transaction) : List String :=
  lt.foldl (fun acc t => addAddr (addAddr acc t.source) t.target) [focus]

/-- A rendered link (edge). The source code stores live node objects; following
the design note of the spec we store the node ids, which is what the code
reads off those objects (`d.source.id`). -/
structure Link where
  source : String
  target : String
  value : ℚ
  direction : Direction
  transactionId : String
deriving DecidableEq

/-- One link per transaction (lines 222-229): `value: t.amount || 0.0001`
(the JavaScript or-operator falls through on the falsy amount 0), direction
outgoing iff the source of the transaction is the focus address, and the id of
the transaction itself. -/
def mkLink (focus : String) (t : Transaction) : Link :=
  { source := t.source
    target := t.target
    value := if t.amount = 0 then 1 / 10000 else t.amount
    direction := if t.source = focus then Direction.outgoing else Direction.incoming
    transactionId := t.transactionId }

/-- The primary link pass (lines 217-229): keep the transactions whose both
endpoints are in the node map, and map each one to its own link. -/
def primaryLinks (ns : List String) (focus : String) (lt : List Transaction) : List Link :=
  (lt.filter (fun t => decide (t.source ∈ ns) && decide (t.target ∈ ns))).map (mkLink focus)

/-- One `uniqueAddresses.add` step of the fallback branch (lines 240-244):
no truthiness guard there, only the inequality with the focus address. -/
def addSet (acc : List String) (a : String) : List String :=
  if a ∈ acc then acc else acc ++ [a]

/-- `uniqueAddresses` of the fallback branch (lines 240-244): every endpoint
address of the valid transactions other than the focus address. -/
def uniqueAddresses (focus : String) (valid : List Transaction) : List String :=
  valid.foldl (fun acc t =>
    let acc1 := if t.source = focus then acc else addSet acc t.source
    if t.target = focus then acc1 else addSet acc1 t.target) []

/-- `txs.reduce((sum, tx) => sum + tx.amount, 0)` (lines 265 and 276). -/
def sumAmounts (ts : List Transaction) : ℚ :=
  ts.foldl (fun s t => s + t.amount) 0

/-- The body of the fallback `forEach` (lines 247-281): for one peer address,
append an aggregated incoming link and an aggregated outgoing link when the
corresponding transaction groups are non-empty; the representative id is the
id of the first member. -/
def fallbackLinksFor (ns : List String) (focus : String) (valid : List Transaction)
    (address : String) (acc : List Link) : List Link :=
  if address ∈ ns ∧ focus ∈ ns then
    let incomingTxs := valid.filter (fun t => t.source == address && t.target == focus)
    let acc1 :=
      match incomingTxs with
      | [] => acc
      | t0 :: _ => acc ++ [{ source := address, target := focus,
                             value := sumAmounts incomingTxs,
                             direction := Direction.incoming,
                             transactionId := t0.transactionId }]
    let outgoingTxs := valid.filter (fun t => t.source == focus && t.target == address)
    match outgoingTxs with
    | [] => acc1
    | t0 :: _ => acc1 ++ [{ source := focus, target := address,
                            value := sumAmounts outgoingTxs,
                            direction := Direction.outgoing,
                            transactionId := t0.transactionId }]
  else acc

/-- The whole fallback synthesis (lines 236-283): direct links between the
focus address and every unique peer address. -/
def fallbackLinks (ns : List String) (focus : String) (valid : List Transaction) : List Link :=
  (uniqueAddresses focus valid).foldl
    (fun acc address => fallbackLinksFor ns focus valid address acc) []

/-- The three distinct user-visible error messages of the build
(lines 140-144, 167-171 and 286-301):
`noValidTransactions` is "No transaction data available to display in the graph.",
`noValidData` is "No valid transaction data found. The transactions may be
missing source or target addresses.", and
`noValidConnections` is "No valid connections found between addresses. Try
searching for a different address." -/
inductive GraphError where
  | noValidTransactions
  | noValidData
  | noValidConnections
deriving DecidableEq

/-- The emitted graph: node ids and links. (Node objects additionally carry an
`explored` flag and simulation coordinates, which the build derives from the id
alone; the claims are about the id set.) -/
structure Graph where
  nodes : List String
  links : List Link
deriving DecidableEq

/-- The graph construction of the data-preparation effect (lines 140-302):
empty-input guard, validity filter, detail-level truncation, empty-after-filter
guard, node set, primary per-transaction links, and the fallback synthesis
guarded by an empty link list. An error result means the component sets an
error message and returns before any simulation is created. -/
def buildGraph (txs : List Transaction) (focus : String) (d : DetailLevel) :
    Except GraphError Graph :=
  if txs.length = 0 then Except.error GraphError.noValidTransactions
  else if (limitedTransactions txs d).length = 0 then Except.error GraphError.noValidData
  else if (primaryLinks (nodeIds focus (limitedTransactions txs d)) focus
      (limitedTransactions txs d)).length = 0 then
    if (validTransactions txs).length > 0 then
      if (primaryLinks (nodeIds focus (limitedTransactions txs d)) focus
            (limitedTransactions txs d)
          ++ fallbackLinks (nodeIds focus (limitedTransactions txs d)) focus
            (validTransactions txs)).length = 0 then
        Except.error GraphError.noValidConnections
      else
        Except.ok { nodes := nodeIds focus (limitedTransactions txs d)
                    links := primaryLinks (nodeIds focus (limitedTransactions txs d)) focus
                        (limitedTransactions txs d)
                      ++ fallbackLinks (nodeIds focus (limitedTransactions txs d)) focus
                        (validTransactions txs) }
    else Except.error GraphError.noValidConnections
  else
    Except.ok { nodes := nodeIds focus (limitedTransactions txs d)
                links := primaryLinks (nodeIds focus (limitedTransactions txs d)) focus
                  (limitedTransactions txs d) }

/-- The stroke-weight normalization (lines 304-312): the defined mid-range
default 2 when all link values are equal, otherwise the linear map of the value
into the range 1..5. -/
def normalizeValue (minValue maxValue value : ℚ) : ℚ :=
  if maxValue = minValue then 2
  else 1 + (value - minValue) / (maxValue - minValue) * 4

/-- The per-tick x clamp (line 656): `d.x = Math.max(100, Math.min(width - 100, d.x))`. -/
def clampX (width x : ℚ) : ℚ := max 100 (min (width - 100) x)

/-- The per-tick y clamp (line 657): `d.y = Math.max(100, Math.min(height - 100, d.y))`. -/
def clampY (height y : ℚ) : ℚ := max 100 (min (height - 100) y)

/-- The boundary step of the tick handler (lines 652-658): clamp the
coordinates of every node into the margins. -/
def tickClamp (width height : ℚ) (ps : List (ℚ × ℚ)) : List (ℚ × ℚ) :=
  ps.map (fun p => (clampX width p.1, clampY height p.2))

/-- The mutable position state of a simulation node: current coordinates and
the optional fixed (pinned) coordinates `fx` and `fy`. -/
structure SimNode where
  x : ℚ
  y : ℚ
  fx : Option ℚ
  fy : Option ℚ
deriving DecidableEq

/-- `dragstarted` (lines 702-707): record the current position as the fixed
position (the alpha-target bump is simulation heat, not position state). -/
def dragstarted (n : SimNode) : SimNode := { n with fx := some n.x, fy := some n.y }

/-- `dragged` (lines 709-713): move the fixed position to the pointer. -/
def dragged (n : SimNode) (ex ey : ℚ) : SimNode := { n with fx := some ex, fy := some ey }

/-- `dragended` (lines 715-720): only the alpha target is lowered; the
`d.fx = null; d.fy = null` release is commented out, so the pin is retained. -/
def dragended (n : SimNode) : SimNode := n

/-- Modelled from the spec: the per-tick treatment of pinned coordinates by the
force-layout engine (the d3-force library, which is external to the
repository). A node whose `fx` or `fy` is set keeps that coordinate regardless
of the net force displacement `(dx, dy)`; an unpinned coordinate moves by the
displacement. -/
def tickNode (dx dy : ℚ) (n : SimNode) : SimNode :=
  { x := n.fx.getD (n.x + dx)
    y := n.fy.getD (n.y + dy)
    fx := n.fx
    fy := n.fy }

/-- Iterate ticks with an arbitrary list of net force displacements. -/
def runTicks (fs : List (ℚ × ℚ)) (n : SimNode) : SimNode :=
  fs.foldl (fun m p => tickNode p.1 p.2 m) n

/-- A concrete outgoing transaction from address A to address B of amount 1. -/
def txA_B_1 : Transaction :=
  { source := "A", target := "B", amount := 1, date := "2024-01-01",
    transactionId := "0x1", direction := Direction.outgoing, gasCost := 0 }

/-- A concrete outgoing transaction from address A to address B of amount 2. -/
def txA_B_2 : Transaction :=
  { source := "A", target := "B", amount := 2, date := "2024-01-01",
    transactionId := "0x2", direction := Direction.outgoing, gasCost := 0 }

/-- A concrete self-referential transaction (source and target both A). -/
def txSelfA : Transaction :=
  { source := "A", target := "A", amount := 5, date := "2024-01-01",
    transactionId := "0x3", direction := Direction.outgoing, gasCost := 0 }

/-- A concrete list of 200 valid transactions. -/
def txs200 : List Transaction := List.replicate 200 txA_B_1

lemma limitOf_pos (d : DetailLevel) : 0 < limitOf d := by
  cases d <;> simp [limitOf]

lemma mem_addAddr_of_mem {acc : List String} {x : String} (a : String) (h : x ∈ acc) :
    x ∈ addAddr acc a := by
  unfold addAddr
  split
  · exact h
  · split
    · exact h
    · exact List.mem_append_left _ h

lemma self_mem_addAddr {a : String} (acc : List String) (ha : a ≠ "") :
    a ∈ addAddr acc a := by
  unfold addAddr
  rw [if_neg ha]
  split
  · assumption
  · exact List.mem_append_right _ (List.mem_singleton_self a)

lemma foldl_addAddr_mono {x : String} :
    ∀ (lt : List Transaction) (acc : List String), x ∈ acc →
      x ∈ lt.foldl (fun a t => addAddr (addAddr a t.source) t.target) acc := by
  intro lt
  induction lt with
  | nil => intro acc h; exact h
  | cons t ts ih =>
    intro acc h
    simp only [List.foldl_cons]
    exact ih _ (mem_addAddr_of_mem _ (mem_addAddr_of_mem _ h))

lemma endpoints_mem_foldl {t : Transaction} (hs : t.source ≠ "") (htg : t.target ≠ "") :
    ∀ (lt : List Transaction) (acc : List String), t ∈ lt →
      t.source ∈ lt.foldl (fun a u => addAddr (addAddr a u.source) u.target) acc ∧
      t.target ∈ lt.foldl (fun a u => addAddr (addAddr a u.source) u.target) acc := by
  intro lt
  induction lt with
  | nil => intro acc h; cases h
  | cons u ts ih =>
    intro acc h
    rcases List.mem_cons.mp h with he | hmem
    · subst he
      simp only [List.foldl_cons]
      constructor
      · exact foldl_addAddr_mono ts _ (mem_addAddr_of_mem _ (self_mem_addAddr _ hs))
      · exact foldl_addAddr_mono ts _ (self_mem_addAddr _ htg)
    · simp only [List.foldl_cons]
      exact ih _ hmem

lemma endpoints_mem_nodeIds (focus : String) {lt : List Transaction} {t : Transaction}
    (ht : t ∈ lt) (hs : t.source ≠ "") (htg : t.target ≠ "") :
    t.source ∈ nodeIds focus lt ∧ t.target ∈ nodeIds focus lt :=
  endpoints_mem_foldl hs htg lt [focus] ht

lemma isValidTx_iff {t : Transaction} :
    isValidTx t = true ↔ t.source ≠ "" ∧ t.target ≠ "" ∧ t.source ≠ t.target := by
  simp [isValidTx, and_assoc]

lemma isValid_of_mem_limited {txs : List Transaction} {d : DetailLevel} {t : Transaction}
    (h : t ∈ limitedTransactions txs d) : isValidTx t = true := by
  unfold limitedTransactions validTransactions at h
  have hmem : t ∈ txs.filter isValidTx := List.take_subset _ _ h
  exact (List.mem_filter.mp hmem).2

lemma primaryLinks_eq_map (focus : String) (txs : List Transaction) (d : DetailLevel) :
    primaryLinks (nodeIds focus (limitedTransactions txs d)) focus (limitedTransactions txs d)
      = (limitedTransactions txs d).map (mkLink focus) := by
  unfold primaryLinks
  congr 1
  apply List.filter_eq_self.mpr
  intro t ht
  have hv := isValid_of_mem_limited ht
  obtain ⟨hs, htg, _⟩ := isValidTx_iff.mp hv
  obtain ⟨h1, h2⟩ := endpoints_mem_nodeIds focus ht hs htg
  simp [h1, h2]

lemma limited_ne_nil {txs : List Transaction} (d : DetailLevel)
    (h : validTransactions txs ≠ []) : limitedTransactions txs d ≠ [] := by
  unfold limitedTransactions
  intro he
  rcases List.take_eq_nil_iff.mp he with h0 | h0
  · exact absurd h0 (Nat.pos_iff_ne_zero.mp (limitOf_pos d))
  · exact h h0

lemma buildGraph_eq_ok (focus : String) {txs : List Transaction} {d : DetailLevel}
    (h : limitedTransactions txs d ≠ []) :
    buildGraph txs focus d =
      Except.ok { nodes := nodeIds focus (limitedTransactions txs d)
                  links := (limitedTransactions txs d).map (mkLink focus) } := by
  have htxs : txs ≠ [] := by
    intro he
    subst he
    simp [limitedTransactions, validTransactions] at h
  have hlen : ¬ txs.length = 0 := by simpa [List.length_eq_zero] using htxs
  have hlt : ¬ (limitedTransactions txs d).length = 0 := by
    simpa [List.length_eq_zero] using h
  have hmap : ¬ (primaryLinks (nodeIds focus (limitedTransactions txs d)) focus
      (limitedTransactions txs d)).length = 0 := by
    rw [primaryLinks_eq_map]
    simpa [List.length_eq_zero, List.map_eq_nil_iff] using h
  unfold buildGraph
  rw [if_neg hlen, if_neg hlt, if_neg hmap, primaryLinks_eq_map]

lemma buildGraph_ok {txs : List Transaction} {focus : String} {d : DetailLevel} {g : Graph}
    (h : buildGraph txs focus d = Except.ok g) :
    limitedTransactions txs d ≠ [] ∧
    g = { nodes := nodeIds focus (limitedTransactions txs d)
          links := (limitedTransactions txs d).map (mkLink focus) } := by
  by_cases hlt : limitedTransactions txs d = []
  · exfalso
    by_cases htxs : txs.length = 0
    · unfold buildGraph at h
      rw [if_pos htxs] at h
      exact Except.noConfusion h
    · have h0 : (limitedTransactions txs d).length = 0 := by simp [hlt]
      unfold buildGraph at h
      rw [if_neg htxs, if_pos h0] at h
      exact Except.noConfusion h
  · have := buildGraph_eq_ok focus hlt
    rw [this] at h
    exact ⟨hlt, (Except.ok.inj h).symm⟩

lemma filter_replicate_of_pos {p : Transaction → Bool} {t : Transaction} (hp : p t = true) :
    ∀ n : Nat, (List.replicate n t).filter p = List.replicate n t := by
  intro n
  induction n with
  | zero => rfl
  | succ n ih => simp [List.replicate_succ, List.filter_cons, hp, ih]

lemma runTicks_cons (f : ℚ × ℚ) (fs : List (ℚ × ℚ)) (m : SimNode) :
    runTicks (f :: fs) m = runTicks fs (tickNode f.1 f.2 m) := rfl

lemma runTicks_pinned {x0 y0 : ℚ} :
    ∀ (fs : List (ℚ × ℚ)) (m : SimNode), m.fx = some x0 → m.fy = some y0 →
      m.x = x0 → m.y = y0 → (runTicks fs m).x = x0 ∧ (runTicks fs m).y = y0 := by
  intro fs
  induction fs with
  | nil => intro m h1 h2 h3 h4; exact ⟨h3, h4⟩
  | cons f fs ih =>
    intro m h1 h2 h3 h4
    rw [runTicks_cons]
    exact ih _ (by simp [tickNode, h1]) (by simp [tickNode, h2])
      (by simp [tickNode, h1]) (by simp [tickNode, h2])

/-- C1, counterexample: with focus address A and two outgoing transactions
A to B of amounts 1 and 2, the build emits TWO links (one per transaction, of
values 1 and 2), not one aggregated edge: the primary link pass of the code
does not collapse raw transactions. -/
theorem c1_counterexample :
    buildGraph [txA_B_1, txA_B_2] "A" DetailLevel.medium =
      Except.ok { nodes := ["A", "B"], links := [mkLink "A" txA_B_1, mkLink "A" txA_B_2] } ∧
    (buildGraph [txA_B_1, txA_B_2] "A" DetailLevel.medium).map (fun g => g.links.length)
      ≠ Except.ok 1 := by
  refine ⟨rfl, ?_⟩
  have h2 : (buildGraph [txA_B_1, txA_B_2] "A" DetailLevel.medium).map
      (fun g => g.links.length) = Except.ok 2 := rfl
  rw [h2]
  simp

/-- C1, amended: whenever any valid transaction survives the detail limit,
each limited transaction yields exactly one emitted edge, whose value is the
amount of that transaction (0.0001 when the amount is 0) and whose id is the
id of that transaction itself; no aggregation takes place in the emitted edge
set. In particular the focus address A with outgoing transactions to B of
amounts 1 and 2 gets two outgoing edges of values 1 and 2. -/
theorem c1_amended (txs : List Transaction) (focus : String) (d : DetailLevel)
    (h : limitedTransactions txs d ≠ []) :
    buildGraph txs focus d =
      Except.ok { nodes := nodeIds focus (limitedTransactions txs d)
                  links := (limitedTransactions txs d).map (mkLink focus) } :=
  buildGraph_eq_ok focus h

/-- C1, witness: the amended claim evaluated on the two-transaction scenario. -/
theorem c1_amended_witness :
    buildGraph [txA_B_1, txA_B_2] "A" DetailLevel.medium =
      Except.ok { nodes := nodeIds "A" (limitedTransactions [txA_B_1, txA_B_2] DetailLevel.medium)
                  links := (limitedTransactions [txA_B_1, txA_B_2] DetailLevel.medium).map
                    (mkLink "A") } :=
  c1_amended [txA_B_1, txA_B_2] "A" DetailLevel.medium (by decide)

/-- C2: if the input list holds at least one valid record touching the focus
address, the build succeeds with a non-empty edge set and in particular never
fails with the `noValidConnections` error. -/
theorem c2_fallback_guarantee (txs : List Transaction) (focus : String) (d : DetailLevel)
    (h : ∃ t ∈ txs, isValidTx t = true ∧ (t.source = focus ∨ t.target = focus)) :
    (∃ g, buildGraph txs focus d = Except.ok g ∧ g.links ≠ []) ∧
    buildGraph txs focus d ≠ Except.error GraphError.noValidConnections := by
  obtain ⟨t, ht, hv, -⟩ := h
  have hvalid : validTransactions txs ≠ [] :=
    List.ne_nil_of_mem (List.mem_filter.mpr ⟨ht, hv⟩)
  have hlt := limited_ne_nil d hvalid
  have hok := buildGraph_eq_ok focus hlt
  refine ⟨⟨_, hok, ?_⟩, ?_⟩
  · simpa [List.map_eq_nil_iff] using hlt
  · rw [hok]
    simp

/-- C2, witness: the guarantee evaluated on one valid outgoing transaction of
the focus address. -/
theorem c2_fallback_guarantee_witness :
    (∃ g, buildGraph [txA_B_1] "A" DetailLevel.low = Except.ok g ∧ g.links ≠ []) ∧
    buildGraph [txA_B_1] "A" DetailLevel.low ≠ Except.error GraphError.noValidConnections :=
  c2_fallback_guarantee [txA_B_1] "A" DetailLevel.low
    ⟨txA_B_1, by decide, by decide, Or.inl rfl⟩

/-- C3: an empty input transaction list makes the build fail with the
`noValidTransactions` error (the message "No transaction data available to
display in the graph."); an error result returns before any simulation is
created. -/
theorem c3_empty_input (focus : String) (d : DetailLevel) :
    buildGraph [] focus d = Except.error GraphError.noValidTransactions := rfl

/-- C4, counterexample: a non-empty list holding only a self-referential
record fails with the distinct empty-after-filter error (`noValidData`,
the message "No valid transaction data found. The transactions may be missing
source or target addresses."), which is neither the `noValidConnections` error
the claim names nor the `noValidTransactions` error. -/
theorem c4_counterexample :
    buildGraph [txSelfA] "A" DetailLevel.medium = Except.error GraphError.noValidData ∧
    GraphError.noValidData ≠ GraphError.noValidConnections ∧
    GraphError.noValidData ≠ GraphError.noValidTransactions :=
  ⟨rfl, by decide, by decide⟩

/-- C4, amended: for a non-empty input whose every record is self-referential,
the records are filtered out at the validity check, `noValidTransactions` is
not returned, and the build fails with the distinct empty-after-filter error
`noValidData` rather than `noValidConnections`. -/
theorem c4_amended (txs : List Transaction) (focus : String) (d : DetailLevel)
    (hne : txs ≠ []) (hself : ∀ t ∈ txs, t.source = t.target) :
    buildGraph txs focus d = Except.error GraphError.noValidData := by
  have hfilter : validTransactions txs = [] := by
    unfold validTransactions
    rw [List.filter_eq_nil_iff]
    intro t ht
    have hst := hself t ht
    simp [isValidTx, hst]
  have hlt : (limitedTransactions txs d).length = 0 := by
    simp [limitedTransactions, hfilter]
  have hlen : ¬ txs.length = 0 := by simpa [List.length_eq_zero] using hne
  unfold buildGraph
  rw [if_neg hlen, if_pos hlt]

/-- C4, witness: the amended claim evaluated on the single self-referential
record. -/
theorem c4_amended_witness :
    buildGraph [txSelfA] "A" DetailLevel.medium = Except.error GraphError.noValidData :=
  c4_amended [txSelfA] "A" DetailLevel.medium (by decide) (by decide)

/-- C5: every edge emitted by a successful build has a source id different
from its target id, and both ids are members of the emitted node set. -/
theorem c5_edge_endpoints (txs : List Transaction) (focus : String) (d : DetailLevel)
    (g : Graph) (h : buildGraph txs focus d = Except.ok g) :
    ∀ l ∈ g.links, l.source ≠ l.target ∧ l.source ∈ g.nodes ∧ l.target ∈ g.nodes := by
  obtain ⟨hlt, rfl⟩ := buildGraph_ok h
  intro l hl
  obtain ⟨t, ht, rfl⟩ := List.mem_map.mp hl
  have hv := isValid_of_mem_limited ht
  obtain ⟨hs, htg, hne⟩ := isValidTx_iff.mp hv
  obtain ⟨h1, h2⟩ := endpoints_mem_nodeIds focus ht hs htg
  exact ⟨hne, h1, h2⟩

/-- C5, witness: the invariant evaluated on the single-transaction build. -/
theorem c5_edge_endpoints_witness :
    (mkLink "A" txA_B_1).source ≠ (mkLink "A" txA_B_1).target ∧
    (mkLink "A" txA_B_1).source ∈ (["A", "B"] : List String) ∧
    (mkLink "A" txA_B_1).target ∈ (["A", "B"] : List String) :=
  c5_edge_endpoints [txA_B_1] "A" DetailLevel.low
    { nodes := ["A", "B"], links := [mkLink "A" txA_B_1] } rfl
    (mkLink "A" txA_B_1) (by simp)

/-- C6: for a value between the minimum and maximum, the normalization is the
linear map `1 + (value - min) / (max - min) * 4` into the bounded range 1..5,
and when the maximum equals the minimum it returns the defined mid-range
default 2 (strictly inside 1..5) without dividing by zero. -/
theorem c6_normalize (minValue maxValue value : ℚ)
    (h1 : minValue ≤ value) (h2 : value ≤ maxValue) :
    (maxValue = minValue →
      normalizeValue minValue maxValue value = 2 ∧ (1 : ℚ) < 2 ∧ (2 : ℚ) < 5) ∧
    (maxValue ≠ minValue →
      normalizeValue minValue maxValue value
          = 1 + (value - minValue) / (maxValue - minValue) * 4 ∧
        1 ≤ normalizeValue minValue maxValue value ∧
        normalizeValue minValue maxValue value ≤ 5) := by
  constructor
  · intro he
    refine ⟨by simp [normalizeValue, he], by norm_num, by norm_num⟩
  · intro hne
    have heq : normalizeValue minValue maxValue value
        = 1 + (value - minValue) / (maxValue - minValue) * 4 := by
      simp [normalizeValue, hne]
    have hlt : minValue < maxValue := lt_of_le_of_ne (h1.trans h2) (Ne.symm hne)
    have hpos : 0 < maxValue - minValue := sub_pos.mpr hlt
    have hfrac0 : 0 ≤ (value - minValue) / (maxValue - minValue) :=
      div_nonneg (sub_nonneg.mpr h1) hpos.le
    have hfrac1 : (value - minValue) / (maxValue - minValue) ≤ 1 := by
      rw [div_le_one hpos]
      exact sub_le_sub_right h2 minValue
    refine ⟨heq, ?_, ?_⟩
    · rw [heq]; linarith
    · rw [heq]; linarith

/-- C6, witness: the normalization evaluated at minimum 1, maximum 3 and
value 2. -/
theorem c6_normalize_witness :
    ((3 : ℚ) = 1 → normalizeValue 1 3 2 = 2 ∧ (1 : ℚ) < 2 ∧ (2 : ℚ) < 5) ∧
    ((3 : ℚ) ≠ 1 →
      normalizeValue 1 3 2 = 1 + (2 - 1) / (3 - 1) * 4 ∧
      1 ≤ normalizeValue 1 3 2 ∧ normalizeValue 1 3 2 ≤ 5) :=
  c6_normalize 1 3 2 (by norm_num) (by norm_num)

/-- C7: the detail levels low, medium and high map to the limits 25, 50 and
100; the builder considers exactly the first `limit` valid records; and with
200 valid transactions under detail level low exactly 25 records are
considered. -/
theorem c7_detail_limits (txs : List Transaction) :
    limitOf DetailLevel.low = 25 ∧ limitOf DetailLevel.medium = 50 ∧
      limitOf DetailLevel.high = 100 ∧
    (∀ d, limitedTransactions txs d = (validTransactions txs).take (limitOf d)) ∧
    ((validTransactions txs).length = 200 →
      (limitedTransactions txs DetailLevel.low).length = 25) := by
  refine ⟨rfl, rfl, rfl, fun d => rfl, fun h => ?_⟩
  simp [limitedTransactions, List.length_take, h, limitOf]

/-- C7, witness: the limits evaluated on a concrete list of 200 valid
transactions. -/
theorem c7_detail_limits_witness :
    (validTransactions txs200).length = 200 ∧
    (limitedTransactions txs200 DetailLevel.low).length = 25 := by
  have h : (validTransactions txs200).length = 200 := by
    unfold validTransactions txs200
    rw [filter_replicate_of_pos (by decide), List.length_replicate]
  exact ⟨h, (c7_detail_limits txs200).2.2.2.2 h⟩

/-- C8: after the per-tick boundary step, every node coordinate lies in
`[margin, dimension - margin]` with the fixed margin 100, provided the
dimension is at least twice the margin (the code uses a fixed height of 800
and the container width). -/
theorem c8_tick_bounds (width height : ℚ) (hw : 200 ≤ width) (hh : 200 ≤ height)
    (ps : List (ℚ × ℚ)) :
    ∀ q ∈ tickClamp width height ps,
      100 ≤ q.1 ∧ q.1 ≤ width - 100 ∧ 100 ≤ q.2 ∧ q.2 ≤ height - 100 := by
  intro q hq
  obtain ⟨p, hp, rfl⟩ := List.mem_map.mp hq
  refine ⟨le_max_left _ _, ?_, le_max_left _ _, ?_⟩
  · exact max_le (by linarith) (min_le_left _ _)
  · exact max_le (by linarith) (min_le_left _ _)

/-- C8, witness: the clamp evaluated on an off-screen point in an 800 by 800
viewport. -/
theorem c8_tick_bounds_witness :
    (100 : ℚ) ≤ clampX 800 0 ∧ clampX 800 0 ≤ 800 - 100 ∧
    (100 : ℚ) ≤ clampY 800 900 ∧ clampY 800 900 ≤ 800 - 100 :=
  c8_tick_bounds 800 800 (by norm_num) (by norm_num) [(0, 900)]
    (clampX 800 0, clampY 800 900) (by simp [tickClamp])

/-- C9: after a drag that ends at `(x0, y0)`, the drag-end handler retains the
fixed position, and any subsequent non-empty sequence of simulation ticks
(arbitrary force displacements from neighboring node movement) leaves the
dragged node at `(x0, y0)`. -/
theorem c9_drag_pin (n : SimNode) (x0 y0 : ℚ) (f0 : ℚ × ℚ) (fs : List (ℚ × ℚ)) :
    (dragended (dragged n x0 y0)).fx = some x0 ∧
    (dragended (dragged n x0 y0)).fy = some y0 ∧
    (runTicks (f0 :: fs) (dragended (dragged n x0 y0))).x = x0 ∧
    (runTicks (f0 :: fs) (dragended (dragged n x0 y0))).y = y0 := by
  refine ⟨rfl, rfl, ?_⟩
  rw [runTicks_cons]
  exact runTicks_pinned fs _ (by simp [tickNode, dragended, dragged])
    (by simp [tickNode, dragended, dragged])
    (by simp [tickNode, dragended, dragged])
    (by simp [tickNode, dragended, dragged])

/-- C10: the endpoint filter of the primary link pass never rejects a limited
transaction (the node set is built from the same transactions), the pass
emits exactly one link per limited transaction, and whenever at least one
valid record survives the limit the build succeeds with exactly those primary
links, so the fallback branch guarded by an empty link list is unreachable. -/
theorem c10_primary_total (txs : List Transaction) (focus : String) (d : DetailLevel) :
    ((limitedTransactions txs d).filter (fun t =>
        decide (t.source ∈ nodeIds focus (limitedTransactions txs d)) &&
        decide (t.target ∈ nodeIds focus (limitedTransactions txs d))))
      = limitedTransactions txs d ∧
    (primaryLinks (nodeIds focus (limitedTransactions txs d)) focus
        (limitedTransactions txs d)).length = (limitedTransactions txs d).length ∧
    (limitedTransactions txs d ≠ [] →
      buildGraph txs focus d = Except.ok
        { nodes := nodeIds focus (limitedTransactions txs d)
          links := primaryLinks (nodeIds focus (limitedTransactions txs d)) focus
            (limitedTransactions txs d) }) := by
  have hfilter : ((limitedTransactions txs d).filter (fun t =>
      decide (t.source ∈ nodeIds focus (limitedTransactions txs d)) &&
      decide (t.target ∈ nodeIds focus (limitedTransactions txs d))))
      = limitedTransactions txs d := by
    apply List.filter_eq_self.mpr
    intro t ht
    have hv := isValid_of_mem_limited ht
    obtain ⟨hs, htg, _⟩ := isValidTx_iff.mp hv
    obtain ⟨h1, h2⟩ := endpoints_mem_nodeIds focus ht hs htg
    simp [h1, h2]
  refine ⟨hfilter, ?_, fun h => ?_⟩
  · rw [primaryLinks_eq_map]
    simp
  · rw [buildGraph_eq_ok focus h, primaryLinks_eq_map]

/-- C10, witness: the totality of the primary pass evaluated on one valid
transaction under detail level high. -/
theorem c10_primary_total_witness :
    ((limitedTransactions [txA_B_2] DetailLevel.high).filter (fun t =>
        decide (t.source ∈ nodeIds "A" (limitedTransactions [txA_B_2] DetailLevel.high)) &&
        decide (t.target ∈ nodeIds "A" (limitedTransactions [txA_B_2] DetailLevel.high))))
      = limitedTransactions [txA_B_2] DetailLevel.high ∧
    (primaryLinks (nodeIds "A" (limitedTransactions [txA_B_2] DetailLevel.high)) "A"
        (limitedTransactions [txA_B_2] DetailLevel.high)).length
      = (limitedTransactions [txA_B_2] DetailLevel.high).length ∧
    (limitedTransactions [txA_B_2] DetailLevel.high ≠ [] →
      buildGraph [txA_B_2] "A" DetailLevel.high = Except.ok
        { nodes := nodeIds "A" (limitedTransactions [txA_B_2] DetailLevel.high)
          links := primaryLinks (nodeIds "A" (limitedTransactions [txA_B_2] DetailLevel.high))
            "A" (limitedTransactions [txA_B_2] DetailLevel.high) }) :=
  c10_primary_total [txA_B_2] "A" DetailLevel.high

end EtherWallet
